import Mathlib

/-!
Verification development for the extenscan risk-scoring core.

The definitions below are a shallow embedding of the Rust sources:
`src/checker/extension_risk.rs`, `src/checker/version.rs`,
`src/output/cli.rs`, `src/output/html.rs`, `src/scanner/firefox.rs`,
and `src/model/package.rs`.  Rust `String`/`&str` values are Lean
`String`s, `Vec<T>` is `List T`, machine integers are `Nat`/`Int`
(with explicit range checks where Rust parsing rejects overflow), and
fallible operations return `Option`.
-/

namespace Extenscan

/-! ## Rust string-primitive models

These model the exact behaviour of the Rust std `str` methods used by
the sources: `trim`, `trim_start_matches`, `split(char)`,
`split_whitespace`, `starts_with`, `ends_with`, `contains`. -/

/-- Membership in Rust's `char::is_whitespace` set (Unicode `White_Space`). -/
def rustIsWhitespace (c : Char) : Bool :=
  let n := c.toNat
  (9 ≤ n && n ≤ 13) || n == 32 || n == 0x85 || n == 0xA0 || n == 0x1680 ||
  (0x2000 ≤ n && n ≤ 0x200A) || n == 0x2028 || n == 0x2029 ||
  n == 0x202F || n == 0x205F || n == 0x3000

/-- Model of Rust `str::trim`: drop whitespace from both ends. -/
def rustTrim (s : String) : String :=
  String.mk (((s.data.dropWhile rustIsWhitespace).reverse.dropWhile rustIsWhitespace).reverse)

/-- Fuel-driven worker for `dropPrefixAll` (fuel bounds the number of
removals; `l.length` removals always suffice for a nonempty prefix). -/
def dropPrefixAllFuel (pre : List Char) : Nat → List Char → List Char
  | 0, l => l
  | fuel + 1, l =>
    if !pre.isEmpty && pre.isPrefixOf l then
      dropPrefixAllFuel pre fuel (l.drop pre.length)
    else l

/-- Model of Rust `str::trim_start_matches(&str)`: repeatedly remove a
leading occurrence of `pre`. -/
def dropPrefixAll (pre l : List Char) : List Char :=
  dropPrefixAllFuel pre l.length l

/-- Model of Rust `str::split(char)`: always yields at least one piece,
and empty pieces are kept. -/
def splitOnCharList (sep : Char) : List Char → List (List Char)
  | [] => [[]]
  | c :: rest =>
    match splitOnCharList sep rest with
    | [] => [[c]]
    | h :: t => if c = sep then [] :: h :: t else (c :: h) :: t

/-- Worker for `splitWhitespaceList`, accumulating the current word
reversed. -/
def splitWsAux : List Char → List Char → List (List Char)
  | [], acc => if acc.isEmpty then [] else [acc.reverse]
  | c :: rest, acc =>
    if rustIsWhitespace c then
      if acc.isEmpty then splitWsAux rest [] else acc.reverse :: splitWsAux rest []
    else splitWsAux rest (c :: acc)

/-- Model of Rust `str::split_whitespace`: split on whitespace runs,
discarding empty pieces. -/
def splitWhitespaceList (l : List Char) : List (List Char) :=
  splitWsAux l []

/-- Everything before the first occurrence of `sep` (the first piece of
`split(sep)`, i.e. `split(sep).next()`). -/
def takeBeforeChar (sep : Char) (l : List Char) : List Char :=
  l.takeWhile (fun c => c ≠ sep)

/-- Model of Rust `str::starts_with(&str)`. -/
def strStartsWith (s pre : String) : Bool :=
  pre.data.isPrefixOf s.data

/-- Model of Rust `str::ends_with(&str)`. -/
def strEndsWith (s suf : String) : Bool :=
  suf.data.isSuffixOf s.data

/-- Model of Rust `str::contains(&str)`: substring containment. -/
def strContains (s pat : String) : Bool :=
  s.data.tails.any (fun t => pat.data.isPrefixOf t)

/-- Numeric value of a list of decimal digits. -/
def digitsToNat (l : List Char) : Nat :=
  l.foldl (fun n c => n * 10 + (c.toNat - 48)) 0

/-- Model of Rust `u32::from_str` (`"s".parse::<u32>()`): an optional
leading `+`, then one or more ASCII digits, value fitting in 32 bits. -/
def parseU32 (s : List Char) : Option Nat :=
  let d := match s with
    | '+' :: r => r
    | _ => s
  if !d.isEmpty && d.all Char.isDigit && digitsToNat d < 2 ^ 32 then
    some (digitsToNat d)
  else none

/-! ## Extension risk data model (`src/checker/extension_risk.rs`) -/

/-- Risk level for a permission or security issue. -/
inductive RiskLevel where
  | Critical
  | High
  | Medium
  | Low
  | None
deriving DecidableEq

/-- Numeric score of a `RiskLevel` (`RiskLevel::score`). -/
def RiskLevel.score : RiskLevel → Nat
  | .Critical => 100
  | .High => 50
  | .Medium => 20
  | .Low => 5
  | .None => 0

/-- String form of a `RiskLevel` (`RiskLevel::as_str`). -/
def RiskLevel.as_str : RiskLevel → String
  | .Critical => "critical"
  | .High => "high"
  | .Medium => "medium"
  | .Low => "low"
  | .None => "none"

/-- Analysis result for a single permission. -/
structure PermissionRisk where
  name : String
  level : RiskLevel
  description : String
  warning : Option String
deriving DecidableEq

/-- Content Security Policy analysis (field defaults mirror
`#[derive(Default)]`). -/
structure CspAnalysis where
  has_csp : Bool := false
  allows_unsafe_eval : Bool := false
  allows_unsafe_inline : Bool := false
  allows_remote_scripts : Bool := false
  allowed_domains : List String := []
  issues : List String := []
  score : Nat := 0
deriving DecidableEq

/-- Scope of host permissions. -/
inductive HostPermissionScope where
  | None
  | Specific
  | Broad
  | AllUrls
deriving DecidableEq

/-- Numeric score of a `HostPermissionScope` (`HostPermissionScope::score`). -/
def HostPermissionScope.score : HostPermissionScope → Nat
  | .None => 0
  | .Specific => 5
  | .Broad => 30
  | .AllUrls => 80

/-- A specific risk issue found during analysis. -/
structure RiskIssue where
  category : String
  severity : RiskLevel
  title : String
  description : String
deriving DecidableEq

/-- Complete extension risk analysis result. -/
structure ExtensionRiskReport where
  total_score : Nat := 0
  risk_level : String := ""
  permissions : List PermissionRisk := []
  host_permissions : List String := []
  host_permission_scope : HostPermissionScope := .None
  csp : CspAnalysis := {}
  external_domains : List String := []
  issues : List RiskIssue := []
deriving DecidableEq

/-! ## Permission risk catalog (`get_permission_risk`) -/

/-- Critical-risk permission table (exact keys, description, warning). -/
def critical_permissions : List (String × String × String) :=
  [ ("debugger", "Access browser debugger", "Can read and modify all data on all websites"),
    ("proxy", "Control browser proxy settings", "Can intercept all network traffic"),
    ("vpnProvider", "VPN provider access", "Can route all network traffic"),
    ("webAuthenticationProxy", "Web authentication proxy", "Can intercept authentication flows") ]

/-- High-risk permission table. -/
def high_permissions : List (String × String × String) :=
  [ ("tabs", "Read browser tabs", "Can see URLs and titles of all open tabs"),
    ("webNavigation", "Monitor navigation", "Can read your browsing history"),
    ("history", "Access browsing history", "Can read and modify browsing history"),
    ("bookmarks", "Access bookmarks", "Can read and modify your bookmarks"),
    ("topSites", "Access top sites", "Can see your most visited websites"),
    ("sessions", "Access session data", "Can access recently closed tabs and windows"),
    ("cookies", "Access cookies", "Can read and modify cookies for any website"),
    ("webRequest", "Intercept web requests", "Can observe and analyze traffic"),
    ("webRequestBlocking", "Block web requests", "Can block or modify network requests"),
    ("declarativeNetRequest", "Modify network requests", "Can redirect or modify requests"),
    ("declarativeNetRequestWithHostAccess", "Modify requests with host access", "Can modify requests to allowed hosts"),
    ("pageCapture", "Capture pages", "Can capture full page content as MHTML"),
    ("tabCapture", "Capture tabs", "Can capture video/audio from tabs"),
    ("desktopCapture", "Capture screen", "Can capture your entire screen"),
    ("nativeMessaging", "Native messaging", "Can communicate with programs on your computer"),
    ("management", "Manage extensions", "Can manage other installed extensions"),
    ("privacy", "Change privacy settings", "Can modify browser privacy settings"),
    ("browsingData", "Clear browsing data", "Can delete browsing history and data"),
    ("contentSettings", "Modify content settings", "Can change website permissions"),
    ("downloads", "Access downloads", "Can manage downloaded files"),
    ("downloads.open", "Open downloads", "Can open downloaded files"),
    ("clipboardRead", "Read clipboard", "Can read data you copy") ]

/-- Medium-risk permission table. -/
def medium_permissions : List (String × String × String) :=
  [ ("activeTab", "Access active tab", "Can access current tab when you click the extension"),
    ("scripting", "Inject scripts", "Can inject JavaScript into web pages"),
    ("geolocation", "Access location", "Can detect your physical location"),
    ("notifications", "Show notifications", "Can display desktop notifications"),
    ("clipboardWrite", "Write clipboard", "Can modify your clipboard"),
    ("identity", "Access identity", "Can access your browser identity"),
    ("identity.email", "Access email", "Can see your email address"),
    ("tts", "Text to speech", "Can use text-to-speech"),
    ("ttsEngine", "TTS engine", "Can provide text-to-speech engine"),
    ("webRequestAuthProvider", "Auth provider", "Can provide authentication"),
    ("userScripts", "User scripts", "Can execute user scripts"),
    ("offscreen", "Offscreen documents", "Can create offscreen documents") ]

/-- Low-risk permission table. -/
def low_permissions : List (String × String × String) :=
  [ ("storage", "Store data", "Can store extension data locally"),
    ("unlimitedStorage", "Unlimited storage", "Can store large amounts of data"),
    ("alarms", "Set alarms", "Can schedule periodic tasks"),
    ("contextMenus", "Context menus", "Can add items to right-click menu"),
    ("idle", "Detect idle", "Can detect when you\x27re idle"),
    ("power", "Power management", "Can affect power saving"),
    ("system.cpu", "CPU info", "Can read CPU information"),
    ("system.memory", "Memory info", "Can read memory usage"),
    ("system.display", "Display info", "Can read display information"),
    ("system.storage", "Storage info", "Can read storage information"),
    ("fontSettings", "Font settings", "Can modify font settings"),
    ("runtime", "Runtime API", "Basic extension runtime access"),
    ("gcm", "Cloud messaging", "Can receive push messages"),
    ("sidePanel", "Side panel", "Can show side panel"),
    ("favicon", "Favicon access", "Can access website favicons"),
    ("readingList", "Reading list", "Can access reading list"),
    ("tabGroups", "Tab groups", "Can organize tabs into groups") ]

/-- Exact-key lookup in a permission table (models `HashMap::get`). -/
def tableGet (table : List (String × String × String)) (permission : String) :
    Option (String × String) :=
  (table.find? (fun e => e.1 = permission)).map (fun e => e.2)

/-- Permission database with risk levels and descriptions
(`get_permission_risk`). -/
def get_permission_risk (permission : String) : PermissionRisk :=
  match tableGet critical_permissions permission with
  | some (desc, warning) => ⟨permission, .Critical, desc, some warning⟩
  | none =>
  match tableGet high_permissions permission with
  | some (desc, warning) => ⟨permission, .High, desc, some warning⟩
  | none =>
  match tableGet medium_permissions permission with
  | some (desc, warning) => ⟨permission, .Medium, desc, some warning⟩
  | none =>
  match tableGet low_permissions permission with
  | some (desc, warning) => ⟨permission, .Low, desc, some warning⟩
  | none => ⟨permission, .Low, "Unknown permission: " ++ permission, none⟩

/-! ## Host permission analysis (`analyze_host_permissions`,
`extract_domain_from_pattern`) -/

/-- Domain extraction from a host pattern
(`extract_domain_from_pattern`): strip scheme prefixes, take the
segment before the first `/`, and drop a bare `*`. -/
def extract_domain_from_pattern (pattern : String) : Option String :=
  let p := dropPrefixAll "*://".data pattern.data
  let p := dropPrefixAll "http://".data p
  let p := dropPrefixAll "https://".data p
  let p := dropPrefixAll "file://".data p
  let domain := takeBeforeChar '/' p
  if domain = ['*'] then none else some (String.mk domain)

/-- Scope escalation for one (already trimmed) host pattern: the
scope-updating part of the loop body of `analyze_host_permissions`. -/
def scopeStep (scope : HostPermissionScope) (host : String) : HostPermissionScope :=
  if host = "<all_urls>" ∨ host = "*://*/*" ∨ host = "http://*/*" ∨ host = "https://*/*" then
    .AllUrls
  else
    let domain_part := takeBeforeChar '/'
      (dropPrefixAll "https://".data
        (dropPrefixAll "http://".data
          (dropPrefixAll "*://".data host.data)))
    if "*.".data.isPrefixOf domain_part ∨ domain_part = ['*'] then
      if scope ≠ .AllUrls then .Broad else scope
    else scope

/-- Domain accumulation for one (already trimmed) host pattern: the
domain-collecting part of the loop body of `analyze_host_permissions`. -/
def domainsStep (domains : List String) (host : String) : List String :=
  match extract_domain_from_pattern host with
  | some domain => if domain ∈ domains then domains else domains ++ [domain]
  | none => domains

/-- One iteration of the `analyze_host_permissions` loop: trim the
pattern, then update scope and domain list. -/
def hostStep (st : HostPermissionScope × List String) (host : String) :
    HostPermissionScope × List String :=
  let h := rustTrim host
  (scopeStep st.1 h, domainsStep st.2 h)

/-- Analyze host permissions for scope (`analyze_host_permissions`). -/
def analyze_host_permissions (hosts : List String) :
    HostPermissionScope × List String :=
  if hosts.isEmpty then (.None, [])
  else hosts.foldl hostStep (.Specific, [])

/-! ## Content Security Policy analysis (`analyze_csp`) -/

/-- The `CspAnalysis` returned for an absent or empty CSP. -/
def noCspAnalysis : CspAnalysis :=
  { issues := ["No Content Security Policy defined"], score := 30 }

/-- Handling of one value of a `script-src` / `default-src` directive
(the inner loop of `analyze_csp` for those directives). -/
def scriptSrcValueStep (a : CspAnalysis) (value : String) : CspAnalysis :=
  let a :=
    if value = "\x27unsafe-eval\x27" then
      { a with allows_unsafe_eval := true,
               issues := a.issues ++ ["CSP allows unsafe-eval (enables eval())"],
               score := a.score + 40 }
    else a
  let a :=
    if value = "\x27unsafe-inline\x27" then
      { a with allows_unsafe_inline := true,
               issues := a.issues ++ ["CSP allows unsafe-inline scripts"],
               score := a.score + 30 }
    else a
  if strStartsWith value "http://" || strStartsWith value "https://" then
    let a := { a with allows_remote_scripts := true }
    match extract_domain_from_pattern value with
    | some domain => { a with allowed_domains := a.allowed_domains ++ [domain] }
    | none => a
  else a

/-- Handling of one value of a `connect-src` directive (the inner loop
of `analyze_csp` for that directive). -/
def connectSrcValueStep (a : CspAnalysis) (value : String) : CspAnalysis :=
  if strStartsWith value "http://" || strStartsWith value "https://" || strContains value "*" then
    match extract_domain_from_pattern value with
    | some domain =>
        if domain ∈ a.allowed_domains then a
        else { a with allowed_domains := a.allowed_domains ++ [domain] }
    | none => a
  else a

/-- Handling of one `;`-separated directive of the CSP string (one
iteration of the outer loop of `analyze_csp`). -/
def directiveStep (a : CspAnalysis) (directive : String) : CspAnalysis :=
  let d := rustTrim directive
  if d.data.isEmpty then a
  else
    match splitWhitespaceList d.data with
    | [] => a
    | nameChars :: valueChars =>
      let directive_name := String.mk nameChars
      let values := valueChars.map String.mk
      if directive_name = "script-src" ∨ directive_name = "default-src" then
        values.foldl scriptSrcValueStep a
      else if directive_name = "connect-src" then
        values.foldl connectSrcValueStep a
      else a

/-- Analyze Content Security Policy (`analyze_csp`). -/
def analyze_csp (csp : Option String) : CspAnalysis :=
  match csp with
  | some c =>
    if !c.data.isEmpty then
      let a : CspAnalysis := { has_csp := true }
      let a := ((splitOnCharList ';' c.data).map String.mk).foldl directiveStep a
      if a.allows_remote_scripts then
        { a with
          issues := a.issues ++
            ["CSP allows loading scripts from " ++ toString a.allowed_domains.length ++
              " external domain(s)"],
          score := a.score + 10 * a.allowed_domains.length }
      else a
    else noCspAnalysis
  | none => noCspAnalysis

/-! ## Full extension analysis (`analyze_extension`) -/

/-- Accumulation of one required permission: add its score, append its
risk record (first loop of `analyze_extension`). -/
def requiredPermStep (acc : Nat × List PermissionRisk) (perm : String) :
    Nat × List PermissionRisk :=
  let risk := get_permission_risk perm
  (acc.1 + risk.level.score, acc.2 ++ [risk])

/-- Accumulation of one optional permission: half-weight score (integer
division), name suffixed with " (optional)" (second loop of
`analyze_extension`). -/
def optionalPermStep (acc : Nat × List PermissionRisk) (perm : String) :
    Nat × List PermissionRisk :=
  let risk := get_permission_risk perm
  (acc.1 + risk.level.score / 2,
   acc.2 ++ [{ risk with name := risk.name ++ " (optional)" }])

/-- Risk-level bucketing as the claim states it, with both bounds of
each inclusive range written out: `0..=20 → "low"`,
`21..=100 → "medium"`, `101..=300 → "high"`, `301.. → "critical"`. -/
def riskLevelBucket (total_score : Nat) : String :=
  if total_score ≤ 20 then "low"
  else if 21 ≤ total_score ∧ total_score ≤ 100 then "medium"
  else if 101 ≤ total_score ∧ total_score ≤ 300 then "high"
  else "critical"

/-- Perform full risk analysis on an extension (`analyze_extension`). -/
def analyze_extension (permissions optional_permissions host_permissions : List String)
    (csp : Option String) : ExtensionRiskReport :=
  let pr1 := permissions.foldl requiredPermStep (0, [])
  let pr2 := optional_permissions.foldl optionalPermStep pr1
  let sh := analyze_host_permissions host_permissions
  let score3 := pr2.1 + sh.1.score
  let cspA := analyze_csp csp
  let total := score3 + cspA.score
  let issues1 : List RiskIssue :=
    if sh.1 = .AllUrls then
      [⟨"Permissions", .Critical, "All URLs access", "Extension can access all websites"⟩]
    else []
  let critical_count := (pr2.2.filter (fun p => p.level = RiskLevel.Critical)).length
  let issues2 :=
    issues1 ++
      (if critical_count > 0 then
        [⟨"Permissions", .Critical, toString critical_count ++ " critical permission(s)",
          "Extension requests highly dangerous permissions"⟩]
      else [])
  let issues3 :=
    issues2 ++
      (if cspA.allows_unsafe_eval then
        [⟨"Security Policy", .High, "Allows eval()",
          "Content Security Policy allows code execution via eval()"⟩]
      else [])
  { total_score := total,
    risk_level :=
      if total ≤ 20 then "low"
      else if total ≤ 100 then "medium"
      else if total ≤ 300 then "high"
      else "critical",
    permissions := pr2.2,
    host_permissions := host_permissions,
    host_permission_scope := sh.1,
    csp := cspA,
    external_domains := sh.2,
    issues := issues3 }

/-! ## Semantic versions (`src/checker/version.rs` and the `semver`
crate it calls)

`is_newer` delegates strict parsing and ordering to the `semver` crate
(version 1.x). The crate is third-party, so its parser and its
`Ord for Version` are modelled here: `major.minor.patch` with
no-leading-zero `u64` numeric components, optional dot-separated
pre-release identifiers (alphanumeric/hyphen, numeric ones without
leading zeros), optional build metadata; precedence compares
major/minor/patch numerically, then pre-release (absent beats present,
numeric identifiers sort below alphanumeric ones), then build
metadata. -/

/-- Valid identifier characters for pre-release / build identifiers:
ASCII alphanumerics and `-`. -/
def isIdentChar (c : Char) : Bool :=
  c.isAlphanum || c = '-'

/-- Parse one `u64` numeric component: nonempty digits, no leading
zero, value below `2 ^ 64`; returns the value and the rest of the
input. -/
def parseNumericIdent (l : List Char) : Option (Nat × List Char) :=
  let digits := l.takeWhile Char.isDigit
  let rest := l.drop digits.length
  if digits.isEmpty then none
  else if digits.head? = some '0' ∧ digits.length > 1 then none
  else if digitsToNat digits < 2 ^ 64 then some (digitsToNat digits, rest)
  else none

/-- Consume a literal `.`. -/
def expectDot : List Char → Option (List Char)
  | '.' :: r => some r
  | _ => none

/-- Validity of one pre-release identifier: nonempty, identifier
characters only, and no leading zero if fully numeric. -/
def validPreIdent (id : List Char) : Bool :=
  !id.isEmpty && id.all isIdentChar &&
    !(id.all Char.isDigit && id.head? == some '0' && id.length > 1)

/-- Validity of one build-metadata identifier: nonempty, identifier
characters only (leading zeros allowed). -/
def validBuildIdent (id : List Char) : Bool :=
  !id.isEmpty && id.all isIdentChar

/-- A parsed semantic version: numeric triple plus pre-release and
build identifier lists. -/
structure SemVer where
  major : Nat
  minor : Nat
  patch : Nat
  pre : List (List Char)
  build : List (List Char)
deriving DecidableEq

/-- Strict semver parse (`semver::Version::parse`). -/
def parseVersion (s : List Char) : Option SemVer := do
  let (major, r1) ← parseNumericIdent s
  let r2 ← expectDot r1
  let (minor, r3) ← parseNumericIdent r2
  let r4 ← expectDot r3
  let (patch, r5) ← parseNumericIdent r4
  match r5 with
  | [] => some ⟨major, minor, patch, [], []⟩
  | '-' :: rest =>
      let preChars := rest.takeWhile (fun c => c ≠ '+')
      let after := rest.drop preChars.length
      let preIds := splitOnCharList '.' preChars
      if preIds.all validPreIdent then
        match after with
        | [] => some ⟨major, minor, patch, preIds, []⟩
        | '+' :: b =>
            let bIds := splitOnCharList '.' b
            if bIds.all validBuildIdent then some ⟨major, minor, patch, preIds, bIds⟩
            else none
        | _ => none
      else none
  | '+' :: b =>
      let bIds := splitOnCharList '.' b
      if bIds.all validBuildIdent then some ⟨major, minor, patch, [], bIds⟩
      else none
  | _ => none

/-- Lexicographic character-list comparison (ASCII string order). -/
def cmpCharList : List Char → List Char → Ordering
  | [], [] => .eq
  | [], _ :: _ => .lt
  | _ :: _, [] => .gt
  | a :: as_, b :: bs =>
    if a < b then .lt else if b < a then .gt else cmpCharList as_ bs

/-- Compare two pre-release identifiers: numeric ones sort below
alphanumeric ones; numeric compare by length then lexically (equal to
numeric order, as there are no leading zeros). -/
def cmpPreIdent (a b : List Char) : Ordering :=
  match a.all Char.isDigit, b.all Char.isDigit with
  | true, true => (compare a.length b.length).then (cmpCharList a b)
  | true, false => .lt
  | false, true => .gt
  | false, false => cmpCharList a b

/-- Compare two build-metadata identifiers: numeric ones (leading
zeros allowed) compare by zero-stripped value, ties broken by original
length; numeric sorts below alphanumeric. -/
def cmpBuildIdent (a b : List Char) : Ordering :=
  match a.all Char.isDigit, b.all Char.isDigit with
  | true, true =>
      let av := a.dropWhile (fun c => c = '0')
      let bv := b.dropWhile (fun c => c = '0')
      ((compare av.length bv.length).then (cmpCharList av bv)).then
        (compare a.length b.length)
  | true, false => .lt
  | false, true => .gt
  | false, false => cmpCharList a b

/-- Identifier-wise list comparison; a strict prefix sorts first. -/
def cmpListWith (f : α → α → Ordering) : List α → List α → Ordering
  | [], [] => .eq
  | [], _ :: _ => .lt
  | _ :: _, [] => .gt
  | a :: as_, b :: bs => (f a b).then (cmpListWith f as_ bs)

/-- Pre-release comparison: an empty pre-release (a release) sorts
above any nonempty one. -/
def cmpPre (a b : List (List Char)) : Ordering :=
  match a, b with
  | [], [] => .eq
  | [], _ :: _ => .gt
  | _ :: _, [] => .lt
  | _ :: _, _ :: _ => cmpListWith cmpPreIdent a b

/-- Total order on parsed versions (`Ord for semver::Version`). -/
def cmpSemVer (a b : SemVer) : Ordering :=
  (compare a.major b.major).then
    ((compare a.minor b.minor).then
      ((compare a.patch b.patch).then
        ((cmpPre a.pre b.pre).then
          (cmpListWith cmpBuildIdent a.build b.build))))

/-- Version-comparison entry point (`is_newer` in
`src/checker/version.rs`): semver comparison after
`trim_start_matches('v')`, with a string-comparison fallback. -/
def is_newer (latest current : String) : Bool :=
  match parseVersion (latest.data.dropWhile (fun c => c = 'v')),
        parseVersion (current.data.dropWhile (fun c => c = 'v')) with
  | some latest_ver, some current_ver => cmpSemVer latest_ver current_ver == .gt
  | _, _ =>
    if current = "unknown" then false
    else latest != current

/-! ## Package / scan data model

`Source`, `Platform`, `PackageMetadata` and `Package` are embedded
from `src/model/package.rs`. The vulnerability-side records live in
`src/model/vulnerability.rs`, which is not among the provided sources,
so those are modelled from the spec (§3). -/

/-- The origin source of a scanned package or extension. -/
inductive Source where
  | Vscode
  | Chrome
  | Edge
  | Firefox
  | Npm
  | Homebrew
deriving DecidableEq

/-- Optional metadata associated with a package. -/
structure PackageMetadata where
  description : Option String := none
  publisher : Option String := none
  homepage : Option String := none
  repository : Option String := none
  license : Option String := none
deriving DecidableEq

/-- A discovered package or extension (`Package` in
`src/model/package.rs`; the `install_path : Option<PathBuf>` field is
modelled as an optional path string). The `extension_risk` field is
Modelled from the spec: §9 describes attaching an optional
`extension_risk` report to a `Package` (its declaration is in a model
file not among the provided sources). -/
structure Package where
  id : String
  name : String
  version : String
  source : Source
  install_path : Option String := none
  metadata : PackageMetadata := {}
  extension_risk : Option ExtensionRiskReport := none
deriving DecidableEq

/-- Constructor `Package::new`: identity plus source, no path, default
metadata. -/
def Package.new (id name version : String) (source : Source) : Package :=
  { id := id, name := name, version := version, source := source }

/-- Builder `Package::with_metadata`. -/
def Package.with_metadata (p : Package) (metadata : PackageMetadata) : Package :=
  { p with metadata := metadata }

/-- Builder setting the optional extension-risk report. Modelled from
the spec: §9 ("attaching an optional extension_risk report to a
Package"); the builder itself is declared outside the provided
sources. -/
def Package.with_extension_risk (p : Package) (report : ExtensionRiskReport) : Package :=
  { p with extension_risk := some report }

/-- Vulnerability severity tier. Modelled from the spec: §3 gives
`Severity` as `Critical | High | Medium | Low | Unknown`
(`src/model/vulnerability.rs` is not among the provided sources). -/
inductive Severity where
  | Critical
  | High
  | Medium
  | Low
  | Unknown
deriving DecidableEq

/-- A security vulnerability record. Modelled from the spec: §3
(declared in `src/model/vulnerability.rs`, not among the provided
sources). -/
structure Vulnerability where
  id : String
  package_id : String
  severity : Severity
  title : String
  description : Option String := none
  fixed_version : Option String := none
  reference_url : Option String := none
deriving DecidableEq

/-- An outdated-package record. Modelled from the spec: §3 (declared
in `src/model/vulnerability.rs`, not among the provided sources). -/
structure OutdatedInfo where
  package_id : String
  current_version : String
  latest_version : String
deriving DecidableEq

/-- Aggregate scan result. Modelled from the spec: §3 (declared
outside the provided sources); the timestamp is an opaque string. -/
structure ScanResult where
  packages : List Package
  vulnerabilities : List Vulnerability
  outdated : List OutdatedInfo
  scan_time : String := ""
deriving DecidableEq

/-! ## Health score and update classification (`src/output/cli.rs`) -/

/-- Severity deduction of one vulnerability in the health-score loop. -/
def cliVulnStep (score : Int) (v : Vulnerability) : Int :=
  match v.severity with
  | .Critical => score - 25
  | .High => score - 15
  | .Medium => score - 8
  | .Low => score - 3
  | .Unknown => score - 5

/-- Deduction of one outdated record in the health-score loop: 5 for a
major update (leading numeric component of `latest_version` exceeds
that of `current_version`), else 2. -/
def cliOutdatedStep (score : Int) (o : OutdatedInfo) : Int :=
  let is_major :=
    let c := o.current_version.data.dropWhile (fun ch => ch = 'v')
    let l := o.latest_version.data.dropWhile (fun ch => ch = 'v')
    let cp := splitOnCharList '.' c
    let lp := splitOnCharList '.' l
    match cp.head?.bind parseU32, lp.head?.bind parseU32 with
    | some cm, some lm => decide (lm > cm)
    | _, _ => false
  if is_major then score - 5 else score - 2

/-- Calculate a health score (0-100) based on vulnerabilities and
outdated packages (`calculate_health_score` in `src/output/cli.rs`). -/
def cli_calculate_health_score (result : ScanResult) : Nat :=
  if result.packages.isEmpty then 100
  else
    let score : Int := 100
    let score := result.vulnerabilities.foldl cliVulnStep score
    let score := result.outdated.foldl cliOutdatedStep score
    (max 0 (min 100 score)).toNat

/-- Classify version update as major, minor, or patch
(`classify_update` in `src/output/cli.rs`). -/
def cli_classify_update (current latest : String) : String :=
  let current_clean := current.data.dropWhile (fun c => c = 'v')
  let latest_clean := latest.data.dropWhile (fun c => c = 'v')
  let current_parts := splitOnCharList '.' current_clean
  let latest_parts := splitOnCharList '.' latest_clean
  match current_parts, latest_parts with
  | c0 :: crest, l0 :: lrest =>
    let current_major := parseU32 c0
    let latest_major := parseU32 l0
    if (match current_major, latest_major with
        | some cm, some lm => decide (lm > cm)
        | _, _ => false) then "MAJOR"
    else
      match crest, lrest with
      | c1 :: _, l1 :: _ =>
        (match parseU32 c1, parseU32 l1 with
         | some cmi, some lmi =>
            if current_major = latest_major ∧ lmi > cmi then "minor" else "patch"
         | _, _ => "patch")
      | _, _ => "patch"
  | _, _ => "patch"

/-! ## Health score and update classification (`src/output/html.rs`) -/

/-- Severity deduction of one vulnerability in the HTML formatter's
health-score loop. -/
def htmlVulnStep (score : Int) (v : Vulnerability) : Int :=
  match v.severity with
  | .Critical => score - 25
  | .High => score - 15
  | .Medium => score - 8
  | .Low => score - 3
  | .Unknown => score - 5

/-- Deduction of one outdated record in the HTML formatter's
health-score loop. -/
def htmlOutdatedStep (score : Int) (o : OutdatedInfo) : Int :=
  let is_major :=
    let c := o.current_version.data.dropWhile (fun ch => ch = 'v')
    let l := o.latest_version.data.dropWhile (fun ch => ch = 'v')
    let cp := splitOnCharList '.' c
    let lp := splitOnCharList '.' l
    match cp.head?.bind parseU32, lp.head?.bind parseU32 with
    | some cm, some lm => decide (lm > cm)
    | _, _ => false
  if is_major then score - 5 else score - 2

/-- Health score as computed by the HTML formatter
(`calculate_health_score` in `src/output/html.rs`). -/
def html_calculate_health_score (result : ScanResult) : Nat :=
  if result.packages.isEmpty then 100
  else
    let score : Int := 100
    let score := result.vulnerabilities.foldl htmlVulnStep score
    let score := result.outdated.foldl htmlOutdatedStep score
    (max 0 (min 100 score)).toNat

/-- Update classification as computed by the HTML formatter
(`classify_update` in `src/output/html.rs`). -/
def html_classify_update (current latest : String) : String :=
  let current_clean := current.data.dropWhile (fun c => c = 'v')
  let latest_clean := latest.data.dropWhile (fun c => c = 'v')
  let current_parts := splitOnCharList '.' current_clean
  let latest_parts := splitOnCharList '.' latest_clean
  match current_parts, latest_parts with
  | c0 :: crest, l0 :: lrest =>
    let current_major := parseU32 c0
    let latest_major := parseU32 l0
    if (match current_major, latest_major with
        | some cm, some lm => decide (lm > cm)
        | _, _ => false) then "MAJOR"
    else
      match crest, lrest with
      | c1 :: _, l1 :: _ =>
        (match parseU32 c1, parseU32 l1 with
         | some cmi, some lmi =>
            if current_major = latest_major ∧ lmi > cmi then "minor" else "patch"
         | _, _ => "patch")
      | _, _ => "patch"
  | _, _ => "patch"

/-! ## Firefox add-on parsing (`src/scanner/firefox.rs`) -/

/-- Author field of a Firefox add-on record: either a bare string or
an object with a `name`. -/
inductive AuthorField where
  | Str (s : String)
  | Obj (name : String)
deriving DecidableEq

/-- `AuthorField::name`. -/
def AuthorField.name : AuthorField → String
  | .Str s => s
  | .Obj n => n

/-- User-granted permissions of a Firefox add-on. -/
structure UserPermissions where
  permissions : List String := []
  origins : List String := []
deriving DecidableEq

/-- Deserialized Firefox add-on record (`FirefoxAddon`). -/
structure FirefoxAddon where
  id : Option String := none
  name : Option String := none
  version : Option String := none
  description : Option String := none
  author : Option AuthorField := none
  homepage_url : Option String := none
  permissions : List String := []
  optional_permissions : List String := []
  user_permissions : Option UserPermissions := none
deriving DecidableEq

/-- Convert one Firefox add-on record into a `Package`
(`parse_firefox_addon`): skip builtin add-ons, collect permissions,
partition API permissions from host patterns, and run the risk
analyzer (with no CSP). -/
def parse_firefox_addon (addon : FirefoxAddon) : Option Package :=
  match addon.id with
  | none => none
  | some id =>
    if strEndsWith id "@mozilla.org" || strEndsWith id "@shield.mozilla.org" then none
    else
      let name := addon.name.getD id
      let version := addon.version.getD "unknown"
      let metadata : PackageMetadata :=
        { description := addon.description,
          publisher := addon.author.map AuthorField.name,
          homepage := addon.homepage_url,
          repository := none,
          license := none }
      let all_permissions :=
        addon.permissions ++
          (match addon.user_permissions with
           | some up => up.permissions
           | none => [])
      let base_host_permissions :=
        match addon.user_permissions with
        | some up => up.origins
        | none => []
      let parts :=
        all_permissions.partition (fun p => !strContains p "://" && !strStartsWith p "<")
      let api_perms := parts.1
      let host_perms := parts.2
      let host_permissions := base_host_permissions ++ host_perms
      let risk_report := analyze_extension api_perms addon.optional_permissions host_permissions none
      some (((Package.new id name version .Firefox).with_metadata metadata).with_extension_risk
        risk_report)

/-! ## Claim-side reference definitions

Definitions in this section follow the wording of the spec sentences
behind the claims (dedup-with-insertion-order, per-severity penalty
sums, the claimed single-`v` strip, the claimed scope order). They are
compared with the source-embedded functions above by the theorems
below. -/

/-- Append a domain only if it is not already present (the spec's
"add to the result list if not already present, preserving first-seen
order"). -/
def insertIfAbsent (acc : List String) (d : String) : List String :=
  if d ∈ acc then acc else acc ++ [d]

/-- Allowed-domain effect of one `script-src` / `default-src` value:
a remote (`http://` / `https://`) value's domain is appended
unconditionally. -/
def scriptSrcDomainStep (domains : List String) (value : String) : List String :=
  if strStartsWith value "http://" || strStartsWith value "https://" then
    match extract_domain_from_pattern value with
    | some d => domains ++ [d]
    | none => domains
  else domains

/-- Allowed-domain effect of one `connect-src` value: appended only if
not already present. -/
def connectSrcDomainStep (domains : List String) (value : String) : List String :=
  if strStartsWith value "http://" || strStartsWith value "https://" || strContains value "*" then
    match extract_domain_from_pattern value with
    | some d => insertIfAbsent domains d
    | none => domains
  else domains

/-- Allowed-domain effect of one CSP directive. -/
def cspDirectiveDomainStep (domains : List String) (directive : String) : List String :=
  let d := rustTrim directive
  if d.data.isEmpty then domains
  else
    match splitWhitespaceList d.data with
    | [] => domains
    | nameChars :: valueChars =>
      let directive_name := String.mk nameChars
      let values := valueChars.map String.mk
      if directive_name = "script-src" ∨ directive_name = "default-src" then
        values.foldl scriptSrcDomainStep domains
      else if directive_name = "connect-src" then
        values.foldl connectSrcDomainStep domains
      else domains

/-- The allowed-domains list of a CSP analysis, computed directly. -/
def cspAllowedDomainsRef (csp : Option String) : List String :=
  match csp with
  | some c =>
    if !c.data.isEmpty then
      ((splitOnCharList ';' c.data).map String.mk).foldl cspDirectiveDomainStep []
    else []
  | none => []

/-- Single-leading-`v`-or-`V` strip, as C4 words it (the code instead
strips every leading lowercase `v`). -/
def stripSingleV (s : String) : String :=
  match s.data with
  | c :: r => if c = 'v' ∨ c = 'V' then String.mk r else s
  | [] => s

/-- The version comparison exactly as claim C4 describes it: a single
leading `v`/`V` stripped from both strings before semver parsing. -/
def claimedIsNewer (latest current : String) : Bool :=
  match parseVersion (stripSingleV latest).data, parseVersion (stripSingleV current).data with
  | some latest_ver, some current_ver => cmpSemVer latest_ver current_ver == .gt
  | _, _ =>
    if current = "unknown" then false
    else latest != current

/-- Health-score deduction per vulnerability severity
(Critical 25, High 15, Medium 8, Low 3, Unknown 5). -/
def severityDeduction : Severity → Int
  | .Critical => 25
  | .High => 15
  | .Medium => 8
  | .Low => 3
  | .Unknown => 5

/-- Total vulnerability penalty of the health score. -/
def vulnPenalty (vs : List Vulnerability) : Int :=
  (vs.map (fun v => severityDeduction v.severity)).sum

/-- Major-update test as the claim words it: both versions stripped of
leading `v`, split on `.`, first segments parsed as unsigned integers,
major iff latest's exceeds current's (unparsable means not major). -/
def claimIsMajorUpdate (o : OutdatedInfo) : Bool :=
  match (splitOnCharList '.' (o.current_version.data.dropWhile (fun c => c = 'v'))).head?.bind
          parseU32,
        (splitOnCharList '.' (o.latest_version.data.dropWhile (fun c => c = 'v'))).head?.bind
          parseU32 with
  | some cm, some lm => decide (lm > cm)
  | _, _ => false

/-- Total outdated-package penalty of the health score: 5 per major
update, 2 per other record. -/
def outdatedPenalty (os : List OutdatedInfo) : Int :=
  (os.map (fun o => if claimIsMajorUpdate o then (5 : Int) else 2)).sum

/-- Rank of a host-permission scope in the escalation order
`None → Specific → Broad → AllUrls`. -/
def scopeRank : HostPermissionScope → Nat
  | .None => 0
  | .Specific => 1
  | .Broad => 2
  | .AllUrls => 3

/-- A concrete Firefox add-on record mixing API permissions, a host
pattern inside `permissions`, user-granted permissions and origins. -/
def addonFixture : FirefoxAddon :=
  { id := some "addon@example.com",
    permissions := ["tabs", "https://a.com/*"],
    optional_permissions := ["geolocation"],
    user_permissions := some { permissions := ["storage"], origins := ["https://b.com/*"] } }

/-- The package `parse_firefox_addon` produces for `addonFixture`. -/
def addonFixturePackage : Package :=
  (parse_firefox_addon addonFixture).getD (Package.new "" "" "" Source.Firefox)

/-! ## Helper lemmas -/

/-- Folding the required-permission step accumulates the sum of the
catalog scores. -/
theorem requiredPermStep_foldl_fst (P : List String) (s : Nat) (l : List PermissionRisk) :
    (P.foldl requiredPermStep (s, l)).1 =
      s + (P.map (fun p => (get_permission_risk p).level.score)).sum := by
  induction P generalizing s l with
  | nil => simp
  | cons p t ih =>
    simp only [List.foldl_cons, List.map_cons, List.sum_cons, requiredPermStep]
    rw [ih]
    omega

/-- The inline risk-level chain of `analyze_extension` agrees with the
two-sided-range bucketing. -/
theorem riskChain_eq_bucket (n : Nat) :
    (if n ≤ 20 then "low"
     else if n ≤ 100 then "medium"
     else if n ≤ 300 then "high"
     else "critical") = riskLevelBucket n := by
  unfold riskLevelBucket
  split_ifs <;> first | rfl | omega

/-- One host-pattern step never lowers the scope rank. -/
theorem scopeStep_rank_le (sc : HostPermissionScope) (h : String) :
    scopeRank sc ≤ scopeRank (scopeStep sc h) := by
  cases sc <;> simp only [scopeStep] <;> split_ifs <;> simp_all [scopeRank]

/-- Folding the host-pattern loop never lowers the scope rank. -/
theorem foldl_hostStep_rank_le (ms : List String) (st : HostPermissionScope × List String) :
    scopeRank st.1 ≤ scopeRank (ms.foldl hostStep st).1 := by
  induction ms generalizing st with
  | nil => exact le_refl _
  | cons m t ih =>
    refine le_trans ?_ (ih (hostStep st m))
    exact scopeStep_rank_le st.1 (rustTrim m)

/-! ## Claim theorems -/

/-- C1 (counterexample): at the explicit input `P = []` (no optional
permissions, no host permissions, no CSP) the report's total score is
30, not the claimed sum over `P` of catalog scores (which is 0): the
missing-CSP branch of `analyze_csp` contributes 30. -/
theorem analyze_no_csp_score_not_permission_sum :
    (analyze_extension [] [] [] none).total_score = 30 ∧
      (30 : Nat) ≠ (([] : List String).map (fun p => (get_permission_risk p).level.score)).sum := by
  constructor
  · rfl
  · decide

/-- C1 (amended): for every permission list `P`,
`analyze_extension P [] [] none` has total score equal to the sum of
the catalog scores of the entries of `P` plus 30, the score
`analyze_csp` assigns when no CSP is present; in particular an empty
`P` yields total score 30. -/
theorem analyze_permissions_only_total_score (P : List String) :
    (analyze_extension P [] [] none).total_score =
      (P.map (fun p => (get_permission_risk p).level.score)).sum + 30 := by
  show (P.foldl requiredPermStep (0, [])).1 + (analyze_host_permissions []).1.score +
      (analyze_csp none).score = _
  rw [requiredPermStep_foldl_fst]
  simp [analyze_host_permissions, analyze_csp, noCspAnalysis, HostPermissionScope.score]

/-- C7: the risk-level string of every report produced by
`analyze_extension` is determined from its final total score by the
inclusive ranges `0..=20 → "low"`, `21..=100 → "medium"`,
`101..=300 → "high"`, `301.. → "critical"`. -/
theorem analyze_risk_level_bucketing (perms opts hosts : List String) (csp : Option String) :
    (analyze_extension perms opts hosts csp).risk_level =
      riskLevelBucket (analyze_extension perms opts hosts csp).total_score :=
  riskChain_eq_bucket _

/-- C8: while `analyze_host_permissions` scans a pattern list, the
scope only escalates in the order
`None → Specific → Broad → AllUrls`: the scope after any prefix of the
list is at least the scope after any shorter prefix. -/
theorem host_scope_monotone (l : List String) (i j : Nat) (hij : i ≤ j) :
    scopeRank (analyze_host_permissions (l.take i)).1 ≤
      scopeRank (analyze_host_permissions (l.take j)).1 := by
  by_cases hi : (l.take i).isEmpty
  · have : (analyze_host_permissions (l.take i)).1 = .None := by
      simp [analyze_host_permissions, hi]
    rw [this]
    exact Nat.zero_le _
  · have hj : ¬(l.take j).isEmpty = true := by
      simp only [List.isEmpty_iff, List.take_eq_nil_iff] at hi ⊢
      push_neg at hi ⊢
      exact ⟨by omega, hi.2⟩
    rw [analyze_host_permissions, analyze_host_permissions, if_neg (by simp [hi]),
      if_neg (by simp [hj])]
    obtain ⟨d, rfl⟩ : ∃ d, j = i + d := ⟨j - i, by omega⟩
    rw [List.take_add, List.foldl_append]
    exact foldl_hostStep_rank_le _ _

/-- Witness for C8 at a concrete input: the hypothesis `1 ≤ 2` holds
and the scope after the length-1 prefix is below the scope after the
full list. -/
theorem host_scope_monotone_witness :
    1 ≤ 2 ∧
      scopeRank (analyze_host_permissions (["https://a.com/*", "<all_urls>"].take 1)).1 ≤
        scopeRank (analyze_host_permissions (["https://a.com/*", "<all_urls>"].take 2)).1 :=
  ⟨by omega, host_scope_monotone ["https://a.com/*", "<all_urls>"] 1 2 (by omega)⟩

/-- C10: the health-score and update-classification helpers duplicated
in the CLI and HTML formatters are extensionally equal. -/
theorem formatter_helpers_agree :
    (∀ result : ScanResult,
        cli_calculate_health_score result = html_calculate_health_score result) ∧
      ∀ current latest : String,
        cli_classify_update current latest = html_classify_update current latest :=
  ⟨fun _ => rfl, fun _ _ => rfl⟩

/-- The domain list accumulated by the host-permission loop is the
insert-if-absent fold of the domains extracted from the trimmed
patterns. -/
theorem hostFold_domains (hosts : List String) (sc : HostPermissionScope) (ds : List String) :
    (hosts.foldl hostStep (sc, ds)).2 =
      (hosts.filterMap (fun h => extract_domain_from_pattern (rustTrim h))).foldl
        insertIfAbsent ds := by
  induction hosts generalizing sc ds with
  | nil => rfl
  | cons h t ih =>
    simp only [List.foldl_cons, List.filterMap_cons]
    cases hx : extract_domain_from_pattern (rustTrim h) with
    | none =>
      rw [show hostStep (sc, ds) h = (scopeStep sc (rustTrim h), ds) from by
        simp [hostStep, domainsStep, hx]]
      exact ih _ _
    | some d =>
      simp only [List.foldl_cons]
      rw [show hostStep (sc, ds) h = (scopeStep sc (rustTrim h), insertIfAbsent ds d) from by
        simp [hostStep, domainsStep, hx, insertIfAbsent]]
      exact ih _ _

/-- Folding `insertIfAbsent` preserves freedom from duplicates. -/
theorem insertIfAbsent_foldl_nodup (xs acc : List String) (h : acc.Nodup) :
    (xs.foldl insertIfAbsent acc).Nodup := by
  induction xs generalizing acc with
  | nil => exact h
  | cons x t ih =>
    simp only [List.foldl_cons]
    apply ih
    unfold insertIfAbsent
    split_ifs with hmem
    · exact h
    · simp [List.nodup_append, h, hmem]

/-- C2 (counterexample): at the explicit input `["<all_urls>"]`,
`analyze_host_permissions` returns the scope `AllUrls` together with
the domain list `["<all_urls>"]`, not the empty list the claim states:
the pattern `<all_urls>` contains no `/`, so the whole pattern is its
own "domain segment" and it differs from `*`. -/
theorem analyze_all_urls_domains_nonempty :
    analyze_host_permissions ["<all_urls>"] = (HostPermissionScope.AllUrls, ["<all_urls>"]) ∧
      (["<all_urls>"] : List String) ≠ [] :=
  ⟨by decide, by decide⟩

/-- C2 (amended): `analyze_host_permissions ["<all_urls>"]` returns
`AllUrls` with the one-element domain list `["<all_urls>"]` (domain
extraction applies to every pattern, and only a segment equal to `*`
contributes nothing). The remaining conjuncts state the unchanged
parts of the claim: the `Specific` and `Broad` examples, the
characterization of the domain list as an insert-if-absent
(first-seen-order, deduplicating) fold of the extracted domains, its
duplicate-freeness, and the extraction rule: no domain exactly when
the segment before the first `/` after scheme stripping equals `*`. -/
theorem host_scope_analyze_amended :
    analyze_host_permissions ["<all_urls>"] = (HostPermissionScope.AllUrls, ["<all_urls>"]) ∧
    analyze_host_permissions ["https://google.com/*"] =
      (HostPermissionScope.Specific, ["google.com"]) ∧
    (analyze_host_permissions ["https://*.google.com/*"]).1 = HostPermissionScope.Broad ∧
    (∀ hosts : List String,
      (analyze_host_permissions hosts).2 =
        (hosts.filterMap (fun h => extract_domain_from_pattern (rustTrim h))).foldl
          insertIfAbsent []) ∧
    (∀ hosts : List String, ((analyze_host_permissions hosts).2).Nodup) ∧
    ∀ pattern : String,
      extract_domain_from_pattern pattern = none ↔
        takeBeforeChar '/'
          (dropPrefixAll "file://".data
            (dropPrefixAll "https://".data
              (dropPrefixAll "http://".data
                (dropPrefixAll "*://".data pattern.data)))) = ['*'] := by
  have hdom : ∀ hosts : List String,
      (analyze_host_permissions hosts).2 =
        (hosts.filterMap (fun h => extract_domain_from_pattern (rustTrim h))).foldl
          insertIfAbsent [] := by
    intro hosts
    cases hosts with
    | nil => rfl
    | cons h t => exact hostFold_domains (h :: t) _ _
  refine ⟨by decide, by decide, by decide, hdom, ?_, ?_⟩
  · intro hosts
    rw [hdom hosts]
    exact insertIfAbsent_foldl_nodup _ _ List.nodup_nil
  · intro pattern
    simp only [extract_domain_from_pattern]
    split_ifs with hd
    · simp [hd]
    · simp [hd]

/-- Domain-list effect of one `script-src` / `default-src` value. -/
theorem scriptSrcValueStep_domains (a : CspAnalysis) (v : String) :
    (scriptSrcValueStep a v).allowed_domains = scriptSrcDomainStep a.allowed_domains v := by
  unfold scriptSrcValueStep scriptSrcDomainStep
  split_ifs <;> cases hx : extract_domain_from_pattern v <;> simp [hx]

/-- Domain-list effect of one `connect-src` value. -/
theorem connectSrcValueStep_domains (a : CspAnalysis) (v : String) :
    (connectSrcValueStep a v).allowed_domains = connectSrcDomainStep a.allowed_domains v := by
  unfold connectSrcValueStep connectSrcDomainStep insertIfAbsent
  split_ifs with h
  · cases hx : extract_domain_from_pattern v with
    | none => rfl
    | some d => simp only [hx]; split_ifs <;> rfl
  · rfl

/-- Domain-list effect of a `script-src` / `default-src` value list. -/
theorem foldl_scriptSrc_domains (vs : List String) (a : CspAnalysis) :
    (vs.foldl scriptSrcValueStep a).allowed_domains =
      vs.foldl scriptSrcDomainStep a.allowed_domains := by
  induction vs generalizing a with
  | nil => rfl
  | cons v t ih =>
    simp only [List.foldl_cons]
    rw [ih, scriptSrcValueStep_domains]

/-- Domain-list effect of a `connect-src` value list. -/
theorem foldl_connectSrc_domains (vs : List String) (a : CspAnalysis) :
    (vs.foldl connectSrcValueStep a).allowed_domains =
      vs.foldl connectSrcDomainStep a.allowed_domains := by
  induction vs generalizing a with
  | nil => rfl
  | cons v t ih =>
    simp only [List.foldl_cons]
    rw [ih, connectSrcValueStep_domains]

/-- Domain-list effect of one CSP directive. -/
theorem directiveStep_domains (a : CspAnalysis) (d : String) :
    (directiveStep a d).allowed_domains = cspDirectiveDomainStep a.allowed_domains d := by
  unfold directiveStep cspDirectiveDomainStep
  by_cases he : (rustTrim d).data.isEmpty
  · simp [he]
  · simp only [he]
    cases hsp : splitWhitespaceList (rustTrim d).data with
    | nil => simp
    | cons nm vs =>
      simp only []
      split_ifs <;>
        first
          | exact foldl_scriptSrc_domains _ _
          | exact foldl_connectSrc_domains _ _
          | rfl

/-- Domain-list effect of the whole directive fold. -/
theorem foldl_directive_domains (ds : List String) (a : CspAnalysis) :
    (ds.foldl directiveStep a).allowed_domains =
      ds.foldl cspDirectiveDomainStep a.allowed_domains := by
  induction ds generalizing a with
  | nil => rfl
  | cons d t ih =>
    simp only [List.foldl_cons]
    rw [ih, directiveStep_domains]

/-- C3 (counterexample): at the explicit input
`"script-src https://a.com https://a.com"`, the CSP analysis lists the
domain `a.com` twice, so `allowed_domains` is not duplicate-free: the
`script-src` branch appends without a membership check. -/
theorem csp_allowed_domains_duplicate :
    (analyze_csp (some "script-src https://a.com https://a.com")).allowed_domains =
        ["a.com", "a.com"] ∧
      ¬((analyze_csp (some "script-src https://a.com https://a.com")).allowed_domains).Nodup :=
  ⟨by decide, by decide⟩

/-- C3 (amended): the `allowed_domains` list of every `CspAnalysis`
produced by `analyze_csp` equals a direct fold in which a remote
`script-src` / `default-src` value's domain is appended
unconditionally (so duplicates can occur there), while a `connect-src`
value's domain is appended only if not already present; insertion
order is preserved. -/
theorem csp_allowed_domains_characterization (csp : Option String) :
    (analyze_csp csp).allowed_domains = cspAllowedDomainsRef csp := by
  cases csp with
  | none => rfl
  | some c =>
    unfold analyze_csp cspAllowedDomainsRef
    by_cases hc : c.data.isEmpty
    · simp [hc, noCspAnalysis]
    · simp only [hc, Bool.not_false, if_true]
      split_ifs <;> simpa using foldl_directive_domains _ _

/-- C4 (counterexample): the claim's single-`v`/`V` strip disagrees
with `is_newer` at explicit inputs. With `latest = "V1.0.0"`,
`current = "2.0.0"`: the code leaves the uppercase `V` in place, fails
semver parsing, and falls back to string inequality, returning
`true`, while the claim predicts `false` (`1.0.0 > 2.0.0` fails).
With `latest = "vv1.0.0"`, `current = "2.0.0"`: the code strips both
`v`s and returns `false` by semver comparison, while the claim's
single strip leaves `"v1.0.0"` unparsable and predicts `true`. -/
theorem is_newer_v_strip_counterexample :
    is_newer "V1.0.0" "2.0.0" = true ∧ claimedIsNewer "V1.0.0" "2.0.0" = false ∧
      is_newer "vv1.0.0" "2.0.0" = false ∧ claimedIsNewer "vv1.0.0" "2.0.0" = true :=
  ⟨by decide, by decide, by decide, by decide⟩

/-- C4 (amended): `is_newer` strips every leading lowercase `v` (not a
single `v`/`V`) from both strings; if both remainders parse as strict
semantic versions the result is `latest > current` under the semver
crate's total order, and otherwise the result is `false` when
`current = "unknown"` and `latest ≠ current` otherwise. The function
is total by construction. The closing conjuncts pin concrete
precedence facts: release beats pre-release, `rc` beats `beta`,
`unknown` never updates, and the non-semver fallback is textual
inequality. -/
theorem is_newer_characterization :
    (∀ latest current : String, ∀ lv cv : SemVer,
      parseVersion (latest.data.dropWhile (fun c => c = 'v')) = some lv →
      parseVersion (current.data.dropWhile (fun c => c = 'v')) = some cv →
      is_newer latest current = (cmpSemVer lv cv == Ordering.gt)) ∧
    (∀ latest current : String,
      parseVersion (latest.data.dropWhile (fun c => c = 'v')) = none ∨
        parseVersion (current.data.dropWhile (fun c => c = 'v')) = none →
      is_newer latest current = if current = "unknown" then false else latest != current) ∧
    is_newer "1.0.0" "1.0.0-beta" = true ∧
    is_newer "1.0.0-rc.1" "1.0.0-beta.1" = true ∧
    is_newer "1.0.0-alpha" "1.0.0" = false ∧
    is_newer "2.0.0" "unknown" = false ∧
    is_newer "anything" "unknown" = false ∧
    is_newer "2024.01.15" "2024.01.14" = true ∧
    is_newer "10.0.0" "9.0.0" = true := by
  refine ⟨?_, ?_, by decide, by decide, by decide, by decide, by decide, by decide, by decide⟩
  · intro latest current lv cv h1 h2
    unfold is_newer
    rw [h1, h2]
  · intro latest current h
    unfold is_newer
    rcases h with h | h
    · rw [h]
    · cases hL : parseVersion (latest.data.dropWhile (fun c => c = 'v')) <;> rw [h]

/-- Witness for C4's characterization at concrete inputs: both
hypotheses of the semver branch hold for `"2.0.0"` and `"1.0.0"`, and
the comparison yields `true`. -/
theorem is_newer_characterization_witness :
    parseVersion ("2.0.0".data.dropWhile (fun c => c = 'v')) =
        some ⟨2, 0, 0, [], []⟩ ∧
      parseVersion ("1.0.0".data.dropWhile (fun c => c = 'v')) =
        some ⟨1, 0, 0, [], []⟩ ∧
      is_newer "2.0.0" "1.0.0" =
        (cmpSemVer ⟨2, 0, 0, [], []⟩ ⟨1, 0, 0, [], []⟩ == Ordering.gt) :=
  ⟨by decide, by decide,
    is_newer_characterization.1 "2.0.0" "1.0.0" ⟨2, 0, 0, [], []⟩ ⟨1, 0, 0, [], []⟩
      (by decide) (by decide)⟩

/-- One vulnerability deduction step subtracts the per-severity
penalty. -/
theorem cliVulnStep_eq (s : Int) (v : Vulnerability) :
    cliVulnStep s v = s - severityDeduction v.severity := by
  cases hv : v.severity <;> simp [cliVulnStep, severityDeduction, hv]

/-- The vulnerability fold subtracts the total vulnerability
penalty. -/
theorem foldl_cliVulnStep (vs : List Vulnerability) (s : Int) :
    vs.foldl cliVulnStep s = s - vulnPenalty vs := by
  induction vs generalizing s with
  | nil => simp [vulnPenalty]
  | cons v t ih =>
    simp only [List.foldl_cons, cliVulnStep_eq, vulnPenalty, List.map_cons, List.sum_cons] at *
    rw [ih]
    ring

/-- One outdated-record deduction step subtracts 5 for a major update
and 2 otherwise. -/
theorem cliOutdatedStep_eq (s : Int) (o : OutdatedInfo) :
    cliOutdatedStep s o = s - (if claimIsMajorUpdate o then 5 else 2) := by
  show (if claimIsMajorUpdate o then s - 5 else s - 2) = _
  split_ifs <;> ring

/-- The outdated fold subtracts the total outdated penalty. -/
theorem foldl_cliOutdatedStep (os : List OutdatedInfo) (s : Int) :
    os.foldl cliOutdatedStep s = s - outdatedPenalty os := by
  induction os generalizing s with
  | nil => simp [outdatedPenalty]
  | cons o t ih =>
    simp only [List.foldl_cons, cliOutdatedStep_eq, outdatedPenalty, List.map_cons,
      List.sum_cons] at *
    rw [ih]
    ring

/-- C6: the health score is 100 for an empty package list (whatever
the vulnerability and outdated lists are); otherwise it is the final
clamp to `[0, 100]` of 100 minus the per-severity vulnerability
penalties (25/15/8/3/5) minus the outdated penalties (5 per major
update, 2 otherwise); and the returned score never exceeds 100. -/
theorem health_score_aggregation (r : ScanResult) :
    (r.packages = [] → cli_calculate_health_score r = 100) ∧
      (r.packages ≠ [] →
        (cli_calculate_health_score r : Int) =
          max 0 (min 100 (100 - vulnPenalty r.vulnerabilities - outdatedPenalty r.outdated))) ∧
      cli_calculate_health_score r ≤ 100 := by
  refine ⟨?_, ?_, ?_⟩
  · intro h
    simp [cli_calculate_health_score, h]
  · intro h
    have hne : r.packages.isEmpty = false := by
      simpa [List.isEmpty_iff] using h
    simp only [cli_calculate_health_score, hne, Bool.false_eq_true, if_false]
    rw [foldl_cliVulnStep, foldl_cliOutdatedStep,
      Int.toNat_of_nonneg (le_max_left 0 _)]
  · unfold cli_calculate_health_score
    split_ifs
    · exact le_refl 100
    · rw [Int.toNat_le]
      exact max_le (by norm_num) (min_le_left _ _)

/-- Witness for C6 at a concrete scan: one package and one critical
vulnerability give the clamp expression (which evaluates to 75). -/
theorem health_score_aggregation_witness :
    ({ packages := [Package.new "pkg" "pkg" "1.0.0" Source.Npm],
       vulnerabilities := [{ id := "CVE-1", package_id := "pkg",
                             severity := Severity.Critical, title := "t" }],
       outdated := [] } : ScanResult).packages ≠ [] ∧
      (cli_calculate_health_score
          { packages := [Package.new "pkg" "pkg" "1.0.0" Source.Npm],
            vulnerabilities := [{ id := "CVE-1", package_id := "pkg",
                                  severity := Severity.Critical, title := "t" }],
            outdated := [] } : Int) =
        max 0 (min 100 (100 -
          vulnPenalty [{ id := "CVE-1", package_id := "pkg",
                         severity := Severity.Critical, title := "t" }] -
          outdatedPenalty [])) := by
  have h : ({ packages := [Package.new "pkg" "pkg" "1.0.0" Source.Npm],
              vulnerabilities := [{ id := "CVE-1", package_id := "pkg",
                                    severity := Severity.Critical, title := "t" }],
              outdated := [] } : ScanResult).packages ≠ [] := by
    decide
  exact ⟨h, (health_score_aggregation _).2.1 h⟩

/-- The Rust `partition` of the combined permission list splits it
into the strings that are not host-like and those that are (a string
is host-like when it contains `"://"` or starts with `"<"`), each part
in original order. -/
theorem permission_partition_filters (l : List String) :
    (l.partition (fun p => !strContains p "://" && !strStartsWith p "<")).1 =
        l.filter (fun p => !(strContains p "://" || strStartsWith p "<")) ∧
      (l.partition (fun p => !strContains p "://" && !strStartsWith p "<")).2 =
        l.filter (fun p => strContains p "://" || strStartsWith p "<") := by
  rw [List.partition_eq_filter_filter]
  constructor
  · exact List.filter_congr (fun x _ => by simp [Bool.not_or])
  · exact List.filter_congr (fun x _ => by simp [Bool.not_and, Bool.not_not])

/-- C9: whenever `parse_firefox_addon` yields a package, that
package's risk report is `analyze_extension` applied to: the combined
permission list (declared plus user-granted) filtered down to the
strings that neither contain `"://"` nor start with `"<"` as required
permissions, the add-on's optional permissions, and the user-granted
origins followed by the host-like strings of the combined list as
host permissions, with no CSP. -/
theorem firefox_permission_partition (addon : FirefoxAddon) (pkg : Package)
    (h : parse_firefox_addon addon = some pkg) :
    pkg.extension_risk = some (analyze_extension
      ((addon.permissions ++ (addon.user_permissions.elim [] UserPermissions.permissions)).filter
        (fun p => !(strContains p "://" || strStartsWith p "<")))
      addon.optional_permissions
      ((addon.user_permissions.elim [] UserPermissions.origins) ++
        (addon.permissions ++
          (addon.user_permissions.elim [] UserPermissions.permissions)).filter
          (fun p => strContains p "://" || strStartsWith p "<"))
      none) := by
  cases hid : addon.id with
  | none => simp [parse_firefox_addon, hid] at h
  | some id =>
    simp only [parse_firefox_addon, hid] at h
    by_cases hb : (strEndsWith id "@mozilla.org" || strEndsWith id "@shield.mozilla.org") = true
    · rw [if_pos hb] at h
      exact absurd h (by simp)
    · rw [if_neg hb] at h
      simp only [Option.some.injEq] at h
      subst h
      cases hup : addon.user_permissions with
      | none =>
        simp only [hup, Option.elim, Package.new, Package.with_metadata,
          Package.with_extension_risk, Option.some.injEq]
        rw [(permission_partition_filters _).1, (permission_partition_filters _).2]
      | some up =>
        simp only [hup, Option.elim, Package.new, Package.with_metadata,
          Package.with_extension_risk, Option.some.injEq]
        rw [(permission_partition_filters _).1, (permission_partition_filters _).2]

/-- Witness for C9 at the concrete add-on fixture: the parse succeeds
with `addonFixturePackage` and that package's risk report is the
analyzer applied to the partitioned permission lists. -/
theorem firefox_permission_partition_witness :
    parse_firefox_addon addonFixture = some addonFixturePackage ∧
      addonFixturePackage.extension_risk = some (analyze_extension
        ((addonFixture.permissions ++
            (addonFixture.user_permissions.elim [] UserPermissions.permissions)).filter
          (fun p => !(strContains p "://" || strStartsWith p "<")))
        addonFixture.optional_permissions
        ((addonFixture.user_permissions.elim [] UserPermissions.origins) ++
          (addonFixture.permissions ++
            (addonFixture.user_permissions.elim [] UserPermissions.permissions)).filter
            (fun p => strContains p "://" || strStartsWith p "<"))
        none) := by
  have h : parse_firefox_addon addonFixture = some addonFixturePackage := by decide
  exact ⟨h, firefox_permission_partition addonFixture addonFixturePackage h⟩

end Extenscan
